import Mathlib

/-!
# Verification of the Linux Driver Guide tutorial examples

Shallow embedding of the kernel-module examples in
`MichaelTien8901/linux-driver-guide-tutorial`, together with proofs and
refutations of the specification claims about them.

Conventions used throughout:
* C machine integers are modelled as `Nat`/`Int`; where a computation in the
  sources is performed in a fixed-width unsigned type and can overflow, the
  reduction `% 2^w` is written explicitly.
* `copy_to_user`/`copy_from_user` are modelled as always succeeding; the
  `-EFAULT` paths of the drivers are reachable only through kernel user-memory
  faults, which a pure embedding does not exhibit.
* Byte buffers are modelled as functions `Nat → Nat`.
* Error numbers: `EINVAL = 22`, `ENOTTY = 25`, `ENOSPC = 28`.
-/

/- ====================================================================
   examples/part3/simple-char/simple_char.c
   ==================================================================== -/

/-- Model of `BUFFER_SIZE` of simple_char.c. -/
def SCHAR_BUFFER_SIZE : Nat := 4096

/-- Model of `struct simple_device`: the byte buffer and the current data size.
The `cdev` and mutex fields carry no data relevant to the file operations. -/
structure SimpleDevice where
  buffer : Nat → Nat
  size : Nat

/-- Result of `schar_read`: the (unchanged) device, the bytes copied to user
space, the updated file position, and the return value. -/
structure ScharReadResult where
  dev : SimpleDevice
  data : List Nat
  newPos : Nat
  ret : Int

/-- Result of `schar_write`: the updated device, the updated file position and
the return value. -/
structure ScharWriteResult where
  dev : SimpleDevice
  newPos : Nat
  ret : Int

/-- Model of `schar_read` from simple_char.c.  The file position is a `Nat`: the VFS
maintains `f_pos ≥ 0` (`simple_llseek` rejects negative positions). -/
def schar_read (dev : SimpleDevice) (pos count : Nat) : ScharReadResult :=
  if dev.size ≤ pos then
    ⟨dev, [], pos, 0⟩
  else
    let available := dev.size - pos
    let count' := if available < count then available else count
    ⟨dev, (List.range count').map fun i => dev.buffer (pos + i), pos + count', (count' : Int)⟩

/-- Model of `schar_write` from simple_char.c.  `data` is the user buffer content; the
requested `count` is `data.length`. -/
def schar_write (dev : SimpleDevice) (pos : Nat) (data : List Nat) : ScharWriteResult :=
  if SCHAR_BUFFER_SIZE ≤ pos then
    ⟨dev, pos, -28⟩
  else
    let space := SCHAR_BUFFER_SIZE - pos
    let n := if space < data.length then space else data.length
    let buffer' := fun i => if pos ≤ i ∧ i < pos + n then data.getD (i - pos) 0 else dev.buffer i
    let size' := if dev.size < pos + n then pos + n else dev.size
    ⟨⟨buffer', size'⟩, pos + n, (n : Int)⟩

/-- Model of `simple_llseek` from simple_char.c.  Returns the updated file position and
the return value; the device is untouched (the lock is taken only to read
`dev->size`).  `whence`: 0 = SEEK_SET, 1 = SEEK_CUR, 2 = SEEK_END. -/
def simple_llseek (dev : SimpleDevice) (fpos : Nat) (offset : Int) (whence : Nat) :
    Nat × Int :=
  if whence = 0 then
    if (offset : Int) < 0 then (fpos, -22) else (offset.toNat, offset)
  else if whence = 1 then
    if (fpos : Int) + offset < 0 then (fpos, -22) else (((fpos : Int) + offset).toNat, (fpos : Int) + offset)
  else if whence = 2 then
    if (dev.size : Int) + offset < 0 then (fpos, -22) else (((dev.size : Int) + offset).toNat, (dev.size : Int) + offset)
  else
    (fpos, -22)

/-- One file operation on the simple_char device. -/
inductive ScharOp where
  | read (count : Nat)
  | write (data : List Nat)
  | llseek (offset : Int) (whence : Nat)

/-- An open file on the simple_char device: the device plus the file position. -/
structure ScharFile where
  dev : SimpleDevice
  fpos : Nat

/-- Effect of one operation on device and file position. -/
def schar_step (st : ScharFile) (op : ScharOp) : ScharFile :=
  match op with
  | .read c => let r := schar_read st.dev st.fpos c; ⟨r.dev, r.newPos⟩
  | .write data => let r := schar_write st.dev st.fpos data; ⟨r.dev, r.newPos⟩
  | .llseek off wh => ⟨st.dev, (simple_llseek st.dev st.fpos off wh).1⟩

/-- A sequence of operations on the simple_char device. -/
def schar_run (st : ScharFile) (ops : List ScharOp) : ScharFile :=
  ops.foldl schar_step st

/- ====================================================================
   examples/part3/ioctl-device/ioctl_device.c and ioctl_example.h
   ==================================================================== -/

/-- Model of `_IOC(dir,type,nr,size)` from asm-generic/ioctl.h: `nr` in bits 0-7,
`type` in bits 8-15, `size` in bits 16-29, `dir` in bits 30-31.  The fields
are disjoint, so the C bitwise-or is addition. -/
def IOC (dir size typ nr : Nat) : Nat :=
  dir * 2 ^ 30 + size * 2 ^ 16 + typ * 2 ^ 8 + nr

/-- Model of `_IOC_TYPE(cmd)`. -/
def IOC_TYPE (cmd : Nat) : Nat := cmd / 2 ^ 8 % 2 ^ 8

/-- Model of `_IOC_NR(cmd)`. -/
def IOC_NR (cmd : Nat) : Nat := cmd % 2 ^ 8

/-- Model of `IOCTL_MAGIC` is the character `'E'` = 69. -/
def IOCTL_MAGIC : Nat := 69

/-- Model of `IOCTL_MAXNR`. -/
def IOCTL_MAXNR : Nat := 5

/-- Model of `IOCTL_RESET = _IO('E', 0)` (dir = _IOC_NONE = 0, size = 0). -/
def IOCTL_RESET : Nat := IOC 0 0 IOCTL_MAGIC 0

/-- Model of `IOCTL_GET_STATS = _IOR('E', 1, struct ioctl_stats)`; on x86-64
`sizeof(struct ioctl_stats)` = 3*8 + 4 padded to 32, dir = _IOC_READ = 2. -/
def IOCTL_GET_STATS : Nat := IOC 2 32 IOCTL_MAGIC 1

/-- Model of `IOCTL_GET_VALUE = _IOR('E', 2, int)`. -/
def IOCTL_GET_VALUE : Nat := IOC 2 4 IOCTL_MAGIC 2

/-- Model of `IOCTL_SET_CONFIG = _IOW('E', 3, struct ioctl_config)`; on x86-64
`sizeof(struct ioctl_config)` = 4 + 4 + 32 = 40, dir = _IOC_WRITE = 1. -/
def IOCTL_SET_CONFIG : Nat := IOC 1 40 IOCTL_MAGIC 3

/-- Model of `IOCTL_SET_VALUE = _IOW('E', 4, int)`. -/
def IOCTL_SET_VALUE : Nat := IOC 1 4 IOCTL_MAGIC 4

/-- Model of `IOCTL_XFER_CONFIG = _IOWR('E', 5, struct ioctl_config)`, dir = 3. -/
def IOCTL_XFER_CONFIG : Nat := IOC 3 40 IOCTL_MAGIC 5

/-- Model of `struct ioctl_config`; `name` is the byte content up to the NUL. -/
structure IoctlConfig where
  speed : Int
  mode : Int
  name : List Nat
deriving DecidableEq

/-- Model of `struct ioctl_stats`. -/
structure IoctlStats where
  reads : Nat
  writes : Nat
  ioctls : Nat
  last_error : Int
deriving DecidableEq

/-- Model of `struct ioctl_device` (the data fields; cdev and mutex omitted). -/
structure IoctlDevice where
  speed : Int
  mode : Int
  name : List Nat
  value : Int
  read_count : Nat
  write_count : Nat
  ioctl_count : Nat
  last_error : Int
deriving DecidableEq

/-- Data the ioctl handler copies back to user space. -/
inductive IoctlOut where
  | no_output
  | stats (s : IoctlStats)
  | value (v : Int)
  | config (c : IoctlConfig)
deriving DecidableEq

/-- Model of `ioctl_ioctl` from ioctl_device.c.  `argConfig`/`argValue` are the user
buffer contents read by `copy_from_user`/`get_user` for the commands that use
them; the result carries the updated device, the return value, and what was
copied out.  `strscpy` into the 32-byte `name` field is modelled as truncation
to 31 bytes. -/
def ioctl_ioctl (dev : IoctlDevice) (cmd : Nat) (argConfig : IoctlConfig) (argValue : Int) :
    IoctlDevice × Int × IoctlOut :=
  if IOC_TYPE cmd ≠ IOCTL_MAGIC then (dev, -25, .no_output)
  else if IOCTL_MAXNR < IOC_NR cmd then (dev, -25, .no_output)
  else
    let dev := { dev with ioctl_count := dev.ioctl_count + 1 }
    if cmd = IOCTL_RESET then
      (⟨0, 0, [], 0, 0, 0, 0, 0⟩, 0, .no_output)
    else if cmd = IOCTL_GET_STATS then
      (dev, 0, .stats ⟨dev.read_count, dev.write_count, dev.ioctl_count, dev.last_error⟩)
    else if cmd = IOCTL_GET_VALUE then
      (dev, 0, .value dev.value)
    else if cmd = IOCTL_SET_CONFIG then
      if argConfig.speed < 0 ∨ 1000 < argConfig.speed then
        ({ dev with last_error := -22 }, -22, .no_output)
      else if argConfig.mode < 0 ∨ 3 < argConfig.mode then
        ({ dev with last_error := -22 }, -22, .no_output)
      else
        ({ dev with speed := argConfig.speed, mode := argConfig.mode,
                    name := argConfig.name.take 31 }, 0, .no_output)
    else if cmd = IOCTL_SET_VALUE then
      ({ dev with value := argValue }, 0, .no_output)
    else if cmd = IOCTL_XFER_CONFIG then
      (dev, 0, .config ⟨dev.speed, dev.mode, dev.name⟩)
    else
      ({ dev with last_error := -25 }, -25, .no_output)

/- ====================================================================
   examples/part13/ramdisk/ramdisk_demo.c
   ==================================================================== -/

/-- Model of `DISK_SIZE` = 16 MB. -/
def RAMDISK_DISK_SIZE : Nat := 16 * 1024 * 1024

/-- Model of `struct ramdisk_dev`: the backing store and its size. -/
structure RamdiskDev where
  data : Nat → Nat
  size : Nat

/-- Model of `rq_data_dir(rq)`. -/
inductive RqDir where
  | read
  | write
deriving DecidableEq

/-- Model of `blk_status_t` values used by the driver. -/
inductive BlkStatus where
  | ok
  | ioerr
deriving DecidableEq

/-- Result of `ramdisk_queue_rq`: the updated device, the completion status,
and, for read segments, the bytes copied out to each processed segment. -/
structure QueueRqResult where
  dev : RamdiskDev
  status : BlkStatus
  readout : List (List Nat)

/-- The `rq_for_each_segment` loop body of `ramdisk_queue_rq`: iterate the
segments at byte position `pos`, bounds-checking each segment, copying write
segments into the store and read segments out of it.  For a write request a
segment is its byte content; for a read request only the segment length is
used and the bytes copied out are collected in `readout`. -/
def ramdisk_segments (dev : RamdiskDev) (dir : RqDir) (pos : Nat) :
    List (List Nat) → QueueRqResult
  | [] => ⟨dev, .ok, []⟩
  | seg :: rest =>
    if dev.size < pos + seg.length then
      ⟨dev, .ioerr, []⟩
    else
      match dir with
      | .write =>
        let dev' : RamdiskDev :=
          ⟨fun i => if pos ≤ i ∧ i < pos + seg.length then seg.getD (i - pos) 0 else dev.data i,
           dev.size⟩
        ramdisk_segments dev' dir (pos + seg.length) rest
      | .read =>
        let out := (List.range seg.length).map fun i => dev.data (pos + i)
        let r := ramdisk_segments dev dir (pos + seg.length) rest
        ⟨r.dev, r.status, out :: r.readout⟩

/-- Model of `ramdisk_queue_rq`: the starting byte position is
`blk_rq_pos(rq) << SECTOR_SHIFT` = `sector * 512`. -/
def ramdisk_queue_rq (dev : RamdiskDev) (dir : RqDir) (sector : Nat)
    (segs : List (List Nat)) : QueueRqResult :=
  ramdisk_segments dev dir (sector * 512) segs

/-- Total byte length of a request's segments. -/
def segsLen (segs : List (List Nat)) : Nat :=
  (segs.map List.length).sum

/-- All segment bytes of a write request, in order. -/
def segsBytes (segs : List (List Nat)) : List Nat :=
  segs.flatten

/- ====================================================================
   examples/part7/threaded-irq-demo/threaded_irq_demo.c
   ==================================================================== -/

/-- Model of `BUFFER_SIZE` of threaded_irq_demo.c. -/
def IRQ_BUFFER_SIZE : Int := 64

/-- Model of `struct irq_demo_device`.  `data_head`/`data_count` are C `int`s, kept as
`Int`; `timer_armed` models whether the simulation timer is pending
(`mod_timer` arms it, expiry or `del_timer_sync` disarms it). -/
structure IrqDemoDevice where
  pending_irq : Bool
  hw_data : Nat
  data_buffer : Int → Nat
  data_head : Int
  data_count : Int
  hardirq_count : Nat
  thread_count : Nat
  spurious_count : Nat
  last_irq_time : Nat
  total_latency_ns : Nat
  running : Bool
  interval_ms : Nat
  timer_armed : Bool

/-- Model of `demo_probe`: `devm_kzalloc` zeroes the device, then the probe sets
`interval_ms = 100` and `running = false`; the timer is set up but not armed. -/
def demo_probe : IrqDemoDevice :=
  { pending_irq := false, hw_data := 0, data_buffer := fun _ => 0, data_head := 0,
    data_count := 0, hardirq_count := 0, thread_count := 0, spurious_count := 0,
    last_irq_time := 0, total_latency_ns := 0, running := false, interval_ms := 100,
    timer_armed := false }

/-- Model of `demo_remove`: stops the simulation and the timer. -/
def demo_remove (dev : IrqDemoDevice) : IrqDemoDevice :=
  { dev with running := false, timer_armed := false }

/-- Model of `trigger_simulated_irq` (the timer callback): a firing timer is no longer
pending; if not running it returns at once, otherwise it generates data,
raises the pending flag and re-arms the timer.  `rnd` is `get_random_u32()`
and `now` is `ktime_get_ns()`. -/
def trigger_simulated_irq (dev : IrqDemoDevice) (rnd now : Nat) : IrqDemoDevice :=
  let dev := { dev with timer_armed := false }
  if dev.running = false then dev
  else
    { dev with hw_data := rnd % 65536, pending_irq := true, last_irq_time := now,
               timer_armed := true }

/-- Model of `demo_thread_handler`: counts the run, accumulates latency, and stores
`hw_data` in the mutex-protected circular buffer. -/
def demo_thread_handler (dev : IrqDemoDevice) (now : Nat) : IrqDemoDevice :=
  { dev with
    thread_count := dev.thread_count + 1,
    total_latency_ns := dev.total_latency_ns + (now - dev.last_irq_time),
    data_buffer := fun i => if i = dev.data_head then dev.hw_data else dev.data_buffer i,
    data_head := (dev.data_head + 1) % IRQ_BUFFER_SIZE,
    data_count := if dev.data_count < IRQ_BUFFER_SIZE then dev.data_count + 1
                  else dev.data_count }

/-- Model of `data_show`: the proc dump of the buffer, oldest entry first; it only
reads the device. -/
def data_show (dev : IrqDemoDevice) : List Nat :=
  (List.range dev.data_count.toNat).map fun i =>
    dev.data_buffer ((dev.data_head - dev.data_count + Int.ofNat i + IRQ_BUFFER_SIZE) %
      IRQ_BUFFER_SIZE)

/-- The `"reset"` command of `control_write`. -/
def control_reset (dev : IrqDemoDevice) : IrqDemoDevice :=
  { dev with hardirq_count := 0, thread_count := 0, spurious_count := 0,
             total_latency_ns := 0, data_count := 0, data_head := 0 }

/-- The `"start"` command of `control_write`. -/
def control_start (dev : IrqDemoDevice) : IrqDemoDevice :=
  if dev.running then dev else { dev with running := true, timer_armed := true }

/-- The `"stop"` command of `control_write`. -/
def control_stop (dev : IrqDemoDevice) : IrqDemoDevice :=
  { dev with running := false, timer_armed := false }

/-- The ring-buffer invariant of claim C5. -/
def IrqBufferInv (dev : IrqDemoDevice) : Prop :=
  0 ≤ dev.data_count ∧ dev.data_count ≤ IRQ_BUFFER_SIZE ∧
    0 ≤ dev.data_head ∧ dev.data_head < IRQ_BUFFER_SIZE

/- ====================================================================
   examples/part11/rtc-driver/rtc_demo.c, with the kernel library helpers
   it calls: mktime64 (kernel/time/time.c), rtc_tm_to_time64,
   rtc_time64_to_tm and rtc_month_days (drivers/rtc/lib.c).
   ==================================================================== -/

/-- The kernel's `rtc_days_in_month` table. -/
def rtc_days_in_month : List Nat := [31, 28, 31, 30, 31, 30, 31, 31, 30, 31, 30, 31]

/-- Model of `is_leap_year` from include/linux/time.h. -/
def is_leap_year (year : Nat) : Bool :=
  (year % 4 == 0 && year % 100 != 0) || (year % 400 == 0)

/-- Model of `rtc_month_days(month, year)`: `month` is 0-based. -/
def rtc_month_days (month year : Nat) : Nat :=
  rtc_days_in_month.getD month 0 + (if is_leap_year year && month == 1 then 1 else 0)

/-- The day-count subexpression of the kernel's `mktime64`: the number of days
from 1970-01-01 to day `day` of 1-based month `mon0` of year `year0`
(Gregorian), computed exactly as mktime64 computes it (month shifted so that
the leap day ends the year).  Valid for `year0 ≥ 1970`, where the result is
nonnegative. -/
def mkdays (year0 mon0 day : Nat) : Nat :=
  let mon := if mon0 ≤ 2 then mon0 + 10 else mon0 - 2
  let year := if mon0 ≤ 2 then year0 - 1 else year0
  year / 4 - year / 100 + year / 400 + 367 * mon / 12 + day + year * 365 - 719499

/-- Kernel `mktime64` on its nonnegative (year ≥ 1970) range; the kernel
computes the day count inline, here factored through `mkdays`. -/
def mktime64 (year0 mon0 day hour minute sec : Nat) : Nat :=
  ((mkdays year0 mon0 day * 24 + hour) * 60 + minute) * 60 + sec

/-- The date part of the kernel's Neri-Schneider `rtc_time64_to_tm`:
year, 0-based month and day of month from a day count since 1970-01-01.
The arithmetic on `u32a` is 32-bit in the kernel, hence the `% 2^32`;
the remaining steps cannot overflow their C types for any input. -/
def civilFromDays (days : Nat) : Nat × Nat × Nat :=
  let udays := days + 719468
  let u32a := (4 * udays + 3) % 4294967296
  let century := u32a / 146097
  let dayOfCentury := u32a % 146097 / 4
  let u32b := 4 * dayOfCentury + 3
  let u64t := 2939745 * u32b
  let yearOfCentury := u64t / 4294967296
  let dayOfYear := u64t % 4294967296 / 2939745 / 4
  let year1 := 100 * century + yearOfCentury
  let u32c := 2141 * dayOfYear + 132377
  let month1 := u32c / 65536
  let day1 := u32c % 65536 / 2141
  let isJanFeb := 306 ≤ dayOfYear
  let year := if isJanFeb then year1 + 1 else year1
  let month := if isJanFeb then month1 - 12 else month1
  (year, month, day1 + 1)

/-- Model of `CompDayOk Mc d`: `d` is a valid day number for computational month `Mc`
(1 = March, ..., 12 = February, with the leap day allowed in February);
used to state the round-trip lemmas for `civilFromDays`. -/
def CompDayOk (Mc d : Nat) : Prop :=
  d ≤ 31 ∧ (Mc = 2 → d ≤ 30) ∧ (Mc = 4 → d ≤ 30) ∧ (Mc = 7 → d ≤ 30) ∧
    (Mc = 9 → d ≤ 30) ∧ (Mc = 12 → d ≤ 29)

/-- Model of `struct rtc_time` (the fields that determine the instant; `tm_wday`,
`tm_yday` and `tm_isdst` are derived outputs of `rtc_time64_to_tm` and are
ignored by `rtc_tm_to_time64`, so they are not part of the time value). -/
structure RtcTime where
  tm_sec : Int
  tm_min : Int
  tm_hour : Int
  tm_mday : Int
  tm_mon : Int
  tm_year : Int
deriving DecidableEq

/-- Model of `rtc_tm_to_time64(tm) = mktime64(tm_year + 1900, tm_mon + 1, ...)`. -/
def rtc_tm_to_time64 (tm : RtcTime) : Int :=
  mktime64 (tm.tm_year + 1900).toNat (tm.tm_mon + 1).toNat tm.tm_mday.toNat
    tm.tm_hour.toNat tm.tm_min.toNat tm.tm_sec.toNat

/-- Kernel `rtc_time64_to_tm` (Neri-Schneider).  The kernel splits `time`
with `div_s64_rem(time, 86400, ...)` (truncating division) and documents
that `time` must be nonnegative, where that division agrees with the `Nat`
division used here. -/
def rtc_time64_to_tm (time : Int) : RtcTime :=
  let t := time.toNat
  let days := t / 86400
  let secs := t % 86400
  let c := civilFromDays days
  let hour := secs / 3600
  let secs2 := secs - hour * 3600
  let minute := secs2 / 60
  { tm_sec := (secs2 - minute * 60 : Nat), tm_min := (minute : Nat), tm_hour := (hour : Nat),
    tm_mday := (c.2.2 : Nat), tm_mon := (c.2.1 : Nat), tm_year := (c.1 : Int) - 1900 }

/-- Model of `rtc_valid_tm` from drivers/rtc/lib.c (the RTC core validates a time with
this before handing it to `demo_rtc_set_time`). -/
def rtc_valid_tm (tm : RtcTime) : Prop :=
  70 ≤ tm.tm_year ∧ tm.tm_year ≤ 2147483647 - 1900 ∧
  0 ≤ tm.tm_mon ∧ tm.tm_mon ≤ 11 ∧
  1 ≤ tm.tm_mday ∧
  tm.tm_mday ≤ (rtc_month_days tm.tm_mon.toNat (tm.tm_year + 1900).toNat : Int) ∧
  0 ≤ tm.tm_hour ∧ tm.tm_hour ≤ 23 ∧
  0 ≤ tm.tm_min ∧ tm.tm_min ≤ 59 ∧
  0 ≤ tm.tm_sec ∧ tm.tm_sec ≤ 59

/-- The state of `struct demo_rtc` relevant to timekeeping. -/
structure DemoRtc where
  base_time : Int
  base_ktime : Int

/-- Model of `demo_rtc_get_time64`: base time plus elapsed whole seconds
(`div_s64` is truncating division). -/
def demo_rtc_get_time64 (drtc : DemoRtc) (now : Int) : Int :=
  drtc.base_time + Int.tdiv (now - drtc.base_ktime) 1000000000

/-- Model of `demo_rtc_read_time` at real time `now` (ns). -/
def demo_rtc_read_time (drtc : DemoRtc) (now : Int) : RtcTime :=
  rtc_time64_to_tm (demo_rtc_get_time64 drtc now)

/-- Model of `demo_rtc_set_time` at real time `now` (ns). -/
def demo_rtc_set_time (drtc : DemoRtc) (tm : RtcTime) (now : Int) : DemoRtc :=
  { base_time := rtc_tm_to_time64 tm, base_ktime := now }

/- ====================================================================
   Repository inventory (claims C1 and C2)
   ==================================================================== -/

/-- Facts about one source file of the repository, read off its text:
whether it is a header or a user-space program (defines `main`), whether it
contains `module_init(...)`/`module_exit(...)` lines, whether it registers
through a `module_*_driver()` helper (which expands to both) or through
`kunit_test_suite()` (which expands to neither), which symbols it defines for
other files (`EXPORT_SYMBOL`), and which symbols of another repository file it
declares `extern` and calls. -/
structure SourceFile where
  name : String
  isHeader : Bool
  hasMain : Bool
  hasModuleInitLine : Bool
  hasModuleExitLine : Bool
  viaModuleDriverHelper : Bool
  viaKunitTestSuite : Bool
  exportedSymbols : List String
  externRefs : List String
deriving DecidableEq

/-- An ordinary kernel-module source file with its own
`module_init`/`module_exit` lines and no cross-file symbols. -/
def kmodFile (name : String) : SourceFile :=
  ⟨name, false, false, true, true, false, false, [], []⟩

/-- A kernel-module source file registering via a `module_*_driver()` helper. -/
def driverHelperFile (name : String) : SourceFile :=
  ⟨name, false, false, false, false, true, false, [], []⟩

/-- A user-space program (`int main`). -/
def userProgFile (name : String) : SourceFile :=
  ⟨name, false, true, false, false, false, false, [], []⟩

/-- The 37 source files of the repository. -/
def repoFiles : List SourceFile :=
  [ ⟨"examples/appendices/kunit-test/kunit_example_test.c",
      false, false, false, false, false, true, [], []⟩,
    kmodFile "examples/appendices/sysfs-demo/sysfs_demo.c",
    kmodFile "examples/appendices/uio-demo/uio_demo.c",
    userProgFile "examples/appendices/uio-demo/uio_userspace.c",
    kmodFile "examples/part1/hello-world/hello.c",
    kmodFile "examples/part10/hwmon-driver/hwmon_demo.c",
    kmodFile "examples/part10/input-device/input_demo.c",
    kmodFile "examples/part10/led-driver/led_demo.c",
    kmodFile "examples/part10/pwm-driver/pwm_demo.c",
    kmodFile "examples/part10/watchdog-driver/watchdog_demo.c",
    kmodFile "examples/part11/iio-adc/iio_adc_demo.c",
    kmodFile "examples/part11/rtc-driver/rtc_demo.c",
    kmodFile "examples/part12/virtual-netdev/vnet_demo.c",
    kmodFile "examples/part13/ramdisk/ramdisk_demo.c",
    driverHelperFile "examples/part14/usb-device/usb_demo.c",
    driverHelperFile "examples/part15/pci-skeleton/pci_skeleton.c",
    kmodFile "examples/part16/pm-driver/pm_demo.c",
    kmodFile "examples/part2/data-structures/data_structures_demo.c",
    ⟨"examples/part2/export-symbol/mylib.c",
      false, false, true, true, false, false,
      ["mylib_increment", "mylib_get_count", "mylib_reset", "mylib_multiply"], []⟩,
    ⟨"examples/part2/export-symbol/myuser.c",
      false, false, true, true, false, false, [],
      ["mylib_increment", "mylib_get_count", "mylib_reset", "mylib_multiply"]⟩,
    kmodFile "examples/part2/module-params/params.c",
    kmodFile "examples/part3/ioctl-device/ioctl_device.c",
    ⟨"examples/part3/ioctl-device/ioctl_example.h",
      true, false, false, false, false, false, [], []⟩,
    userProgFile "examples/part3/ioctl-device/test_ioctl.c",
    kmodFile "examples/part3/simple-char/simple_char.c",
    kmodFile "examples/part4/kthread-demo/kthread_demo.c",
    kmodFile "examples/part4/spinlock-demo/spinlock_demo.c",
    kmodFile "examples/part4/timer-demo/timer_demo.c",
    kmodFile "examples/part4/workqueue-demo/workqueue_demo.c",
    kmodFile "examples/part5/dma-demo/dma_demo.c",
    kmodFile "examples/part5/kmem-cache-demo/kmem_cache_demo.c",
    driverHelperFile "examples/part6/platform-driver/platform_driver_demo.c",
    kmodFile "examples/part7/threaded-irq-demo/threaded_irq_demo.c",
    driverHelperFile "examples/part8/dt-platform-driver/dt_platform_demo.c",
    kmodFile "examples/part9/gpio-driver/gpio_chip_demo.c",
    driverHelperFile "examples/part9/i2c-sensor/i2c_sensor_demo.c",
    driverHelperFile "examples/part9/spi-device/spi_flash_demo.c" ]

/-- A file defines module entry and exit points: directly, or through a
`module_*_driver()` helper (which expands to `module_init` and `module_exit`). -/
def definesEntryExit (f : SourceFile) : Bool :=
  (f.hasModuleInitLine && f.hasModuleExitLine) || f.viaModuleDriverHelper

theorem schar_read_dev_eq (dev : SimpleDevice) (pos count : Nat) :
    (schar_read dev pos count).dev = dev := by
  unfold schar_read
  split <;> rfl

theorem schar_read_size_eq (dev : SimpleDevice) (pos count : Nat) :
    (schar_read dev pos count).dev.size = dev.size := by
  rw [schar_read_dev_eq]

/-- C6: a read at `pos ≥ size` returns 0 and changes nothing; a read at
`pos < size` copies exactly `min count (size - pos)` buffer bytes starting at
`pos`, advances the position by that number and returns it.  The device is
unchanged in both cases. -/
theorem c6_schar_read_spec (dev : SimpleDevice) (pos count : Nat) :
    (dev.size ≤ pos → schar_read dev pos count = ⟨dev, [], pos, 0⟩) ∧
    (pos < dev.size →
      schar_read dev pos count =
        ⟨dev, (List.range (min count (dev.size - pos))).map fun i => dev.buffer (pos + i),
         pos + min count (dev.size - pos), ((min count (dev.size - pos) : Nat) : Int)⟩) := by
  constructor
  · intro h
    simp only [schar_read, if_pos h]
  · intro h
    simp only [schar_read, if_neg (show ¬dev.size ≤ pos by omega)]
    have hmin : (if dev.size - pos < count then dev.size - pos else count)
        = min count (dev.size - pos) := by split <;> omega
    rw [hmin]

/-- Witness for C6 at a concrete device. -/
theorem c6_schar_read_spec_witness :
    (1 < (⟨fun i => i + 1, 3⟩ : SimpleDevice).size) ∧
    schar_read ⟨fun i => i + 1, 3⟩ 1 5 = ⟨⟨fun i => i + 1, 3⟩, [2, 3], 3, 2⟩ :=
  ⟨by norm_num,
   by rw [(c6_schar_read_spec ⟨fun i => i + 1, 3⟩ 1 5).2 (by norm_num)]; rfl⟩

theorem schar_write_size (dev : SimpleDevice) (pos : Nat) (data : List Nat) :
    dev.size ≤ (schar_write dev pos data).dev.size ∧
    ((schar_write dev pos data).dev.size ≤ max dev.size SCHAR_BUFFER_SIZE) := by
  simp only [schar_write, SCHAR_BUFFER_SIZE]
  split
  · dsimp only
    omega
  · dsimp only
    constructor
    · split_ifs <;> omega
    · split_ifs <;> omega

theorem schar_step_size (st : ScharFile) (op : ScharOp) :
    st.dev.size ≤ (schar_step st op).dev.size ∧
    ((schar_step st op).dev.size ≤ max st.dev.size SCHAR_BUFFER_SIZE) := by
  cases op with
  | read c =>
    simp only [schar_step, schar_read_dev_eq]
    omega
  | write data => exact schar_write_size st.dev st.fpos data
  | llseek off wh =>
    simp only [schar_step]
    omega

theorem schar_run_size (st : ScharFile) (ops : List ScharOp) :
    st.dev.size ≤ (schar_run st ops).dev.size ∧
    ((schar_run st ops).dev.size ≤ max st.dev.size SCHAR_BUFFER_SIZE) := by
  induction ops generalizing st with
  | nil => simp [schar_run]
  | cons op rest ih =>
    have h1 := schar_step_size st op
    have h2 := ih (schar_step st op)
    unfold schar_run at h2 ⊢
    rw [List.foldl_cons]
    omega

/-- C7: any sequence of reads, writes and seeks keeps `size ≤ 4096` and never
shrinks `size`; a write at `pos < 4096` transfers `min count (4096 - pos)`
bytes and sets the size to `max size (pos + transferred)`; a write at
`pos ≥ 4096` returns `-ENOSPC` changing nothing; reads and seeks change
neither the buffer nor the size.  (`0 ≤ size` holds by the `Nat` type.) -/
theorem c7_schar_invariants :
    (∀ (st : ScharFile) (ops : List ScharOp), st.dev.size ≤ SCHAR_BUFFER_SIZE →
      (schar_run st ops).dev.size ≤ SCHAR_BUFFER_SIZE ∧
      st.dev.size ≤ (schar_run st ops).dev.size) ∧
    (∀ (dev : SimpleDevice) (pos : Nat) (data : List Nat), pos < SCHAR_BUFFER_SIZE →
      (schar_write dev pos data).ret
          = ((min data.length (SCHAR_BUFFER_SIZE - pos) : Nat) : Int) ∧
      (schar_write dev pos data).dev.size
          = max dev.size (pos + min data.length (SCHAR_BUFFER_SIZE - pos))) ∧
    (∀ (dev : SimpleDevice) (pos : Nat) (data : List Nat), SCHAR_BUFFER_SIZE ≤ pos →
      schar_write dev pos data = ⟨dev, pos, -28⟩) ∧
    (∀ (st : ScharFile) (c : Nat),
      (schar_step st (.read c)).dev.buffer = st.dev.buffer ∧
      (schar_step st (.read c)).dev.size = st.dev.size) ∧
    (∀ (st : ScharFile) (off : Int) (wh : Nat),
      (schar_step st (.llseek off wh)).dev = st.dev) := by
  refine ⟨?_, ?_, ?_, ?_, ?_⟩
  · intro st ops h
    have := schar_run_size st ops
    omega
  · intro dev pos data h
    simp only [schar_write, if_neg (show ¬SCHAR_BUFFER_SIZE ≤ pos by omega)]
    have hmin : (if SCHAR_BUFFER_SIZE - pos < data.length
        then SCHAR_BUFFER_SIZE - pos else data.length)
        = min data.length (SCHAR_BUFFER_SIZE - pos) := by split <;> omega
    rw [hmin]
    refine ⟨rfl, ?_⟩
    dsimp only
    split <;> omega
  · intro dev pos data h
    simp only [schar_write, if_pos h]
  · intro st c
    have h := schar_read_dev_eq st.dev st.fpos c
    constructor
    · show (schar_read st.dev st.fpos c).dev.buffer = st.dev.buffer
      rw [h]
    · show (schar_read st.dev st.fpos c).dev.size = st.dev.size
      rw [h]
  · intro st off wh
    rfl

/-- Witness for C7 at concrete inputs. -/
theorem c7_schar_invariants_witness :
    ((⟨⟨fun _ => 0, 0⟩, 0⟩ : ScharFile).dev.size ≤ SCHAR_BUFFER_SIZE ∧
      (schar_run ⟨⟨fun _ => 0, 0⟩, 0⟩ [.write [7, 8, 9], .llseek 1 0, .read 2]).dev.size
        ≤ SCHAR_BUFFER_SIZE) ∧
    (schar_write ⟨fun _ => 0, 0⟩ 4090 [1, 2, 3, 4, 5, 6, 7, 8, 9]).ret = 6 ∧
    (schar_write ⟨fun _ => 0, 0⟩ 4096 [1, 2]).ret = -28 := by
  refine ⟨⟨by decide, ?_⟩, ?_, ?_⟩
  · exact ((c7_schar_invariants.1 ⟨⟨fun _ => 0, 0⟩, 0⟩
      [.write [7, 8, 9], .llseek 1 0, .read 2]) (by decide)).1
  · have h := (c7_schar_invariants.2.1 ⟨fun _ => 0, 0⟩ 4090
      [1, 2, 3, 4, 5, 6, 7, 8, 9] (by decide)).1
    rw [h]
    rfl
  · have h := c7_schar_invariants.2.2.1 ⟨fun _ => 0, 0⟩ 4096 [1, 2] (by decide)
    rw [h]

/- ====================================================================
   Theorems: ioctl_device (claim C9)
   ==================================================================== -/

/-- C9: an ioctl whose magic byte is not `'E'` or whose command number
exceeds `IOCTL_MAXNR` returns `-ENOTTY` with the device completely unchanged
(the checks precede the lock and the `ioctl_count` increment); a command that
passes both checks but matches no case increments `ioctl_count`, sets
`last_error` to `-ENOTTY` and returns `-ENOTTY`. -/
theorem c9_ioctl_validation (dev : IoctlDevice) (cmd : Nat)
    (cfg : IoctlConfig) (v : Int) :
    ((IOC_TYPE cmd ≠ IOCTL_MAGIC ∨ IOCTL_MAXNR < IOC_NR cmd) →
      ioctl_ioctl dev cmd cfg v = (dev, -25, .no_output)) ∧
    (IOC_TYPE cmd = IOCTL_MAGIC → IOC_NR cmd ≤ IOCTL_MAXNR →
      cmd ≠ IOCTL_RESET → cmd ≠ IOCTL_GET_STATS → cmd ≠ IOCTL_GET_VALUE →
      cmd ≠ IOCTL_SET_CONFIG → cmd ≠ IOCTL_SET_VALUE → cmd ≠ IOCTL_XFER_CONFIG →
      ioctl_ioctl dev cmd cfg v =
        ({ dev with ioctl_count := dev.ioctl_count + 1, last_error := -25 },
          -25, .no_output)) := by
  constructor
  · intro h
    by_cases hm : IOC_TYPE cmd ≠ IOCTL_MAGIC
    · unfold ioctl_ioctl
      rw [if_pos hm]
    · have hnr : IOCTL_MAXNR < IOC_NR cmd := by tauto
      unfold ioctl_ioctl
      rw [if_neg hm, if_pos hnr]
  · intro h1 h2 h3 h4 h5 h6 h7 h8
    unfold ioctl_ioctl
    rw [if_neg (by simp [h1]), if_neg (by omega), if_neg h3, if_neg h4, if_neg h5,
      if_neg h6, if_neg h7, if_neg h8]

/-- Witness for C9: a command with the wrong magic, and a command with the
right magic and an in-range number matching no case. -/
theorem c9_ioctl_validation_witness :
    ioctl_ioctl ⟨0, 0, [], 0, 0, 0, 0, 0⟩ 0 ⟨0, 0, []⟩ 0
      = (⟨0, 0, [], 0, 0, 0, 0, 0⟩, -25, .no_output) ∧
    ioctl_ioctl ⟨0, 0, [], 0, 0, 0, 0, 0⟩ (IOC 0 4 IOCTL_MAGIC 0) ⟨0, 0, []⟩ 0
      = (⟨0, 0, [], 0, 0, 0, 1, -25⟩, -25, .no_output) := by
  constructor
  · exact (c9_ioctl_validation ⟨0, 0, [], 0, 0, 0, 0, 0⟩ 0 ⟨0, 0, []⟩ 0).1
      (Or.inl (by decide))
  · rw [(c9_ioctl_validation ⟨0, 0, [], 0, 0, 0, 0, 0⟩ (IOC 0 4 IOCTL_MAGIC 0)
      ⟨0, 0, []⟩ 0).2 (by decide) (by decide) (by decide) (by decide) (by decide)
      (by decide) (by decide) (by decide)]

/- ====================================================================
   Theorems: ramdisk (claims C3, C4)
   ==================================================================== -/

theorem segsLen_cons (seg : List Nat) (rest : List (List Nat)) :
    segsLen (seg :: rest) = seg.length + segsLen rest := by
  simp [segsLen]

theorem segsBytes_cons (seg : List Nat) (rest : List (List Nat)) :
    segsBytes (seg :: rest) = seg ++ segsBytes rest := by
  simp [segsBytes]

theorem segsBytes_length (segs : List (List Nat)) :
    (segsBytes segs).length = segsLen segs := by
  induction segs with
  | nil => rfl
  | cons seg rest ih => simp [segsBytes_cons, segsLen_cons, ih]

theorem range_map_getD (l : List Nat) :
    (List.range l.length).map (fun i => l.getD i 0) = l := by
  apply List.ext_getElem
  · simp
  · intro i h1 h2
    simp [List.getD_eq_getElem?_getD, List.getElem?_eq_getElem h2]

/-- A read request never changes the backing store. -/
theorem ramdisk_segments_read_dev (dev : RamdiskDev) (pos : Nat)
    (segs : List (List Nat)) :
    (ramdisk_segments dev .read pos segs).dev = dev := by
  induction segs generalizing pos with
  | nil => rfl
  | cons seg rest ih =>
    unfold ramdisk_segments
    split
    · rfl
    · exact ih (pos + seg.length)

/-- A write request preserves the device size. -/
theorem ramdisk_segments_write_size (dev : RamdiskDev) (pos : Nat)
    (segs : List (List Nat)) :
    (ramdisk_segments dev .write pos segs).dev.size = dev.size := by
  induction segs generalizing dev pos with
  | nil => rfl
  | cons seg rest ih =>
    unfold ramdisk_segments
    split
    · rfl
    · exact ih _ (pos + seg.length)

/-- The request fails iff some segment, at its cumulative position, extends
past the device size. -/
theorem ramdisk_segments_status (dev : RamdiskDev) (dir : RqDir) (pos : Nat)
    (segs : List (List Nat)) :
    ((ramdisk_segments dev dir pos segs).status = .ioerr ↔
      ∃ k, k < segs.length ∧ dev.size < pos + segsLen (segs.take (k + 1))) := by
  induction segs generalizing dev pos with
  | nil =>
    simp [ramdisk_segments]
  | cons seg rest ih =>
    unfold ramdisk_segments
    by_cases hb : dev.size < pos + seg.length
    · rw [if_pos hb]
      constructor
      · intro _
        refine ⟨0, by simp, ?_⟩
        rw [List.take_succ_cons, List.take_zero, segsLen_cons]
        simpa [segsLen] using hb
      · intro _
        rfl
    · rw [if_neg hb]
      have key : ∀ dev' : RamdiskDev, dev'.size = dev.size →
          (((ramdisk_segments dev' dir (pos + seg.length) rest).status = .ioerr) ↔
            (∃ k, k < (seg :: rest).length ∧
              dev.size < pos + segsLen ((seg :: rest).take (k + 1)))) := by
        intro dev' hsz
        rw [ih dev' (pos + seg.length)]
        constructor
        · rintro ⟨k, hk, hbound⟩
          refine ⟨k + 1, by simpa using hk, ?_⟩
          rw [List.take_succ_cons, segsLen_cons]
          rw [hsz] at hbound
          omega
        · rintro ⟨k, hk, hbound⟩
          match k with
          | 0 =>
            exfalso
            apply hb
            rw [List.take_succ_cons, List.take_zero, segsLen_cons] at hbound
            simp only [segsLen, List.map_nil, List.sum_nil] at hbound
            omega
          | k + 1 =>
            refine ⟨k, by simpa using hk, ?_⟩
            rw [List.take_succ_cons, segsLen_cons] at hbound
            rw [hsz]
            omega
      cases dir with
      | write =>
        exact key _ rfl
      | read =>
        dsimp only
        exact key dev rfl

/-- A fully in-bounds write request succeeds, stores exactly its bytes at the
request's byte range, and leaves every other byte unchanged. -/
theorem ramdisk_segments_write_ok (dev : RamdiskDev) (pos : Nat)
    (segs : List (List Nat)) (h : pos + segsLen segs ≤ dev.size) :
    (ramdisk_segments dev .write pos segs).status = .ok ∧
    (∀ i, i < segsLen segs →
      (ramdisk_segments dev .write pos segs).dev.data (pos + i)
        = (segsBytes segs).getD i 0) ∧
    (∀ j, j < pos ∨ pos + segsLen segs ≤ j →
      (ramdisk_segments dev .write pos segs).dev.data j = dev.data j) := by
  induction segs generalizing dev pos with
  | nil =>
    refine ⟨rfl, ?_, ?_⟩
    · intro i hi
      simp [segsLen] at hi
    · intro j hj
      rfl
  | cons seg rest ih =>
    rw [segsLen_cons] at h
    have hb : ¬ dev.size < pos + seg.length := by omega
    unfold ramdisk_segments
    rw [if_neg hb]
    set dev' : RamdiskDev :=
      ⟨fun i => if pos ≤ i ∧ i < pos + seg.length then seg.getD (i - pos) 0 else dev.data i,
       dev.size⟩ with hdev'
    have hsz : dev'.size = dev.size := rfl
    have ihr := ih dev' (pos + seg.length) (by rw [hsz]; omega)
    refine ⟨ihr.1, ?_, ?_⟩
    · intro i hi
      rw [segsLen_cons] at hi
      by_cases hfirst : i < seg.length
      · have hout := ihr.2.2 (pos + i) (Or.inl (by omega))
        rw [hout]
        have : dev'.data (pos + i) = seg.getD i 0 := by
          simp only [hdev']
          rw [if_pos (by omega)]
          congr 1
          omega
        rw [this, segsBytes_cons]
        rw [List.getD_eq_getElem?_getD, List.getD_eq_getElem?_getD,
          List.getElem?_append_left hfirst]
      · have hi' : i - seg.length < segsLen rest := by omega
        have hin := ihr.2.1 (i - seg.length) hi'
        have harg : pos + seg.length + (i - seg.length) = pos + i := by omega
        rw [harg] at hin
        rw [hin, segsBytes_cons]
        rw [List.getD_eq_getElem?_getD, List.getD_eq_getElem?_getD,
          List.getElem?_append_right (by omega)]
    · intro j hj
      rw [segsLen_cons] at hj
      have hout := ihr.2.2 j (by omega)
      rw [hout]
      simp only [hdev']
      rw [if_neg (by omega)]

/-- A fully in-bounds read request succeeds and copies out exactly the bytes
of the request's byte range, in order. -/
theorem ramdisk_segments_read_ok (dev : RamdiskDev) (pos : Nat)
    (segs : List (List Nat)) (h : pos + segsLen segs ≤ dev.size) :
    (ramdisk_segments dev .read pos segs).status = .ok ∧
    (ramdisk_segments dev .read pos segs).readout.flatten
      = (List.range (segsLen segs)).map (fun i => dev.data (pos + i)) := by
  induction segs generalizing pos with
  | nil =>
    exact ⟨rfl, by simp [ramdisk_segments, segsLen]⟩
  | cons seg rest ih =>
    rw [segsLen_cons] at h
    have hb : ¬ dev.size < pos + seg.length := by omega
    unfold ramdisk_segments
    rw [if_neg hb]
    have ihr := ih (pos + seg.length) (by omega)
    refine ⟨ihr.1, ?_⟩
    dsimp only
    rw [List.flatten_cons, ihr.2, segsLen_cons, List.range_add, List.map_append,
      List.map_map]
    congr 1
    apply List.map_congr_left
    intro i hi
    simp only [Function.comp_apply]
    congr 1
    omega

/-- A write request whose first out-of-bounds segment is segment `k` fails
with an I/O error after storing the bytes of the first `k` segments; bytes
below `pos` and from the offending segment's start onward are unchanged. -/
theorem ramdisk_segments_write_err (dev : RamdiskDev) (pos : Nat)
    (segs : List (List Nat)) (k : Nat) (hk : k < segs.length)
    (hpre : pos + segsLen (segs.take k) ≤ dev.size)
    (hviol : dev.size < pos + segsLen (segs.take k) + (segs.getD k []).length) :
    (ramdisk_segments dev .write pos segs).status = .ioerr ∧
    (ramdisk_segments dev .write pos segs).dev.size = dev.size ∧
    (∀ i, i < segsLen (segs.take k) →
      (ramdisk_segments dev .write pos segs).dev.data (pos + i)
        = (segsBytes (segs.take k)).getD i 0) ∧
    (∀ j, j < pos ∨ pos + segsLen (segs.take k) ≤ j →
      (ramdisk_segments dev .write pos segs).dev.data j = dev.data j) := by
  induction k generalizing dev pos segs with
  | zero =>
    match segs, hk with
    | seg :: rest, _ =>
      simp only [List.getD_eq_getElem?_getD, List.getElem?_cons_zero] at hviol
      have hb : dev.size < pos + seg.length := by
        simp only [List.take_zero, segsLen, List.map_nil, List.sum_nil] at hviol
        simpa using hviol
      unfold ramdisk_segments
      rw [if_pos hb]
      refine ⟨rfl, rfl, ?_, ?_⟩
      · intro i hi
        simp [segsLen] at hi
      · intro j hj
        rfl
  | succ k ihk =>
    match segs, hk with
    | seg :: rest, hk =>
      rw [List.take_succ_cons, segsLen_cons] at hpre hviol ⊢
      rw [List.getD_cons_succ] at hviol
      have hb : ¬ dev.size < pos + seg.length := by omega
      unfold ramdisk_segments
      rw [if_neg hb]
      set dev' : RamdiskDev :=
        ⟨fun i => if pos ≤ i ∧ i < pos + seg.length then seg.getD (i - pos) 0 else dev.data i,
         dev.size⟩ with hdev'
      have hsz : dev'.size = dev.size := rfl
      have ihr := ihk dev' (pos + seg.length) rest (by simpa using hk)
        (by rw [hsz]; omega) (by rw [hsz]; omega)
      refine ⟨ihr.1, by rw [ihr.2.1, hsz], ?_, ?_⟩
      · intro i hi
        by_cases hfirst : i < seg.length
        · have hout := ihr.2.2.2 (pos + i) (Or.inl (by omega))
          rw [hout]
          have : dev'.data (pos + i) = seg.getD i 0 := by
            simp only [hdev']
            rw [if_pos (by omega)]
            congr 1
            omega
          rw [this, segsBytes_cons]
          rw [List.getD_eq_getElem?_getD, List.getD_eq_getElem?_getD,
            List.getElem?_append_left hfirst]
        · have hi' : i - seg.length < segsLen (rest.take k) := by omega
          have hin := ihr.2.2.1 (i - seg.length) hi'
          have harg : pos + seg.length + (i - seg.length) = pos + i := by omega
          rw [harg] at hin
          rw [hin, segsBytes_cons]
          rw [List.getD_eq_getElem?_getD, List.getD_eq_getElem?_getD,
            List.getElem?_append_right (by omega)]
      · intro j hj
        have hout := ihr.2.2.2 j (by omega)
        rw [hout]
        simp only [hdev']
        rw [if_neg (by omega)]

/-- C3: for a request whose segments all lie within the 16 MB RAM disk,
`ramdisk_queue_rq` copies each write segment into the backing store at the
request's byte position (`sector << 9`, advanced by each segment's length)
and each read segment out of it, and completes with `BLK_STS_OK`; a write of
bytes `B` followed by a read of the same range returns exactly `B`, and bytes
outside the written range are unchanged. -/
theorem c3_ramdisk_rw_roundtrip (dev : RamdiskDev) (sector : Nat)
    (segs : List (List Nat)) (hdev : dev.size = RAMDISK_DISK_SIZE)
    (hbound : sector * 512 + segsLen segs ≤ dev.size) :
    (ramdisk_queue_rq dev .write sector segs).status = .ok ∧
    (∀ i, i < segsLen segs →
      (ramdisk_queue_rq dev .write sector segs).dev.data (sector * 512 + i)
        = (segsBytes segs).getD i 0) ∧
    (∀ j, j < sector * 512 ∨ sector * 512 + segsLen segs ≤ j →
      (ramdisk_queue_rq dev .write sector segs).dev.data j = dev.data j) ∧
    (ramdisk_queue_rq dev .read sector segs).status = .ok ∧
    (ramdisk_queue_rq dev .read sector segs).dev = dev ∧
    (∀ segs', segsLen segs' = segsLen segs →
      (ramdisk_queue_rq (ramdisk_queue_rq dev .write sector segs).dev
          .read sector segs').readout.flatten
        = segsBytes segs) := by
  simp only [ramdisk_queue_rq]
  have hw := ramdisk_segments_write_ok dev (sector * 512) segs hbound
  have hr := ramdisk_segments_read_ok dev (sector * 512) segs hbound
  refine ⟨hw.1, hw.2.1, hw.2.2, hr.1, ramdisk_segments_read_dev dev (sector * 512) segs, ?_⟩
  intro segs' hlen
  have hsz := ramdisk_segments_write_size dev (sector * 512) segs
  have hr' := ramdisk_segments_read_ok
    (ramdisk_segments dev .write (sector * 512) segs).dev (sector * 512) segs'
    (by rw [hsz, hlen]; exact hbound)
  rw [hr'.2, hlen]
  have : ∀ i ∈ List.range (segsLen segs),
      (ramdisk_segments dev .write (sector * 512) segs).dev.data (sector * 512 + i)
        = (segsBytes segs).getD i 0 := by
    intro i hi
    exact hw.2.1 i (List.mem_range.mp hi)
  rw [List.map_congr_left this]
  rw [← segsBytes_length segs]
  exact range_map_getD (segsBytes segs)

/-- Witness for C3 at a concrete 16 MB device. -/
theorem c3_ramdisk_rw_roundtrip_witness :
    ((⟨fun _ => 0, RAMDISK_DISK_SIZE⟩ : RamdiskDev).size = RAMDISK_DISK_SIZE) ∧
    (1 * 512 + segsLen [[5, 6], [7]] ≤ RAMDISK_DISK_SIZE) ∧
    (ramdisk_queue_rq ⟨fun _ => 0, RAMDISK_DISK_SIZE⟩ .write 1 [[5, 6], [7]]).status = .ok ∧
    (ramdisk_queue_rq (ramdisk_queue_rq ⟨fun _ => 0, RAMDISK_DISK_SIZE⟩
        .write 1 [[5, 6], [7]]).dev .read 1 [[0, 0, 0]]).readout.flatten = [5, 6, 7] := by
  have h := c3_ramdisk_rw_roundtrip ⟨fun _ => 0, RAMDISK_DISK_SIZE⟩ 1 [[5, 6], [7]]
    rfl (by decide)
  refine ⟨rfl, by decide, h.1, ?_⟩
  rw [h.2.2.2.2.2 [[0, 0, 0]] (by decide)]
  rfl

/-- C4: `ramdisk_queue_rq` completes with `BLK_STS_IOERR` iff some segment,
in iteration order, extends past the device size; on such an error on a write
request the segments before the offending one have already been copied into
the backing store, and the bytes from the offending segment's start onward
are unchanged. -/
theorem c4_ramdisk_error_behaviour (dev : RamdiskDev) (dir : RqDir) (sector : Nat)
    (segs : List (List Nat)) :
    ((ramdisk_queue_rq dev dir sector segs).status = .ioerr ↔
      ∃ k, k < segs.length ∧ dev.size < sector * 512 + segsLen (segs.take (k + 1))) ∧
    (∀ k, k < segs.length →
      sector * 512 + segsLen (segs.take k) ≤ dev.size →
      dev.size < sector * 512 + segsLen (segs.take k) + (segs.getD k []).length →
      (ramdisk_queue_rq dev .write sector segs).status = .ioerr ∧
      (∀ i, i < segsLen (segs.take k) →
        (ramdisk_queue_rq dev .write sector segs).dev.data (sector * 512 + i)
          = (segsBytes (segs.take k)).getD i 0) ∧
      (∀ j, sector * 512 + segsLen (segs.take k) ≤ j →
        (ramdisk_queue_rq dev .write sector segs).dev.data j = dev.data j)) := by
  constructor
  · exact ramdisk_segments_status dev dir (sector * 512) segs
  · intro k hk hpre hviol
    have h := ramdisk_segments_write_err dev (sector * 512) segs k hk hpre hviol
    exact ⟨h.1, h.2.2.1, fun j hj => h.2.2.2 j (Or.inr hj)⟩

set_option maxRecDepth 40000 in
/-- Witness for C4: a two-segment write whose second segment crosses the end
of a 1024-byte store; the first segment is persisted, later bytes are not
touched. -/
theorem c4_ramdisk_error_behaviour_witness :
    (1 < ([[5, 6], List.replicate 600 7] : List (List Nat)).length ∧
      1 * 512 + segsLen ([[5, 6], List.replicate 600 7].take 1) ≤ 1024 ∧
      (1024 : Nat) < 1 * 512 + segsLen ([[5, 6], List.replicate 600 7].take 1)
        + (([[5, 6], List.replicate 600 7] : List (List Nat)).getD 1 []).length) ∧
    (ramdisk_queue_rq ⟨fun _ => 9, 1024⟩ .write 1 [[5, 6], List.replicate 600 7]).status
      = .ioerr ∧
    (ramdisk_queue_rq ⟨fun _ => 9, 1024⟩ .write 1
      [[5, 6], List.replicate 600 7]).dev.data 512 = 5 ∧
    (ramdisk_queue_rq ⟨fun _ => 9, 1024⟩ .write 1
      [[5, 6], List.replicate 600 7]).dev.data 514 = 9 := by
  have h := (c4_ramdisk_error_behaviour ⟨fun _ => 9, 1024⟩ .write 1
    [[5, 6], List.replicate 600 7]).2 1 (by decide) (by decide) (by decide)
  refine ⟨⟨by decide, by decide, by decide⟩, h.1, ?_, ?_⟩
  · have := h.2.1 0 (by decide)
    simpa using this
  · have := h.2.2 514 (by decide)
    rw [this]

/- ====================================================================
   Theorems: threaded-irq demo (claims C5, C10)
   ==================================================================== -/

/-- C5: the mutex-protected ring buffer satisfies `0 ≤ data_count ≤ 64` and
`0 ≤ data_head < 64` across every operation that touches it — the threaded
handler's store, the reset command, and the proc data dump (which only reads
the device and reports `data_count` entries); each handled interrupt stores
`hw_data` at `data_head`, advances `data_head` modulo 64, and increments
`data_count` saturating at 64, so that with a full buffer the slot the data
dump lists as the oldest entry is the one overwritten. -/
theorem c5_ring_buffer (dev : IrqDemoDevice) (now : Nat) (h : IrqBufferInv dev) :
    IrqBufferInv (demo_thread_handler dev now) ∧
    IrqBufferInv (control_reset dev) ∧
    (demo_thread_handler dev now).data_buffer dev.data_head = dev.hw_data ∧
    (demo_thread_handler dev now).data_head = (dev.data_head + 1) % 64 ∧
    (demo_thread_handler dev now).data_count = min (dev.data_count + 1) 64 ∧
    (data_show dev).length = dev.data_count.toNat ∧
    (dev.data_count = 64 →
      (dev.data_head - dev.data_count + 0 + 64) % 64 = dev.data_head) := by
  obtain ⟨h1, h2, h3, h4⟩ := h
  simp only [IRQ_BUFFER_SIZE] at h2 h4
  refine ⟨⟨?_, ?_, ?_, ?_⟩, ⟨?_, ?_, ?_, ?_⟩, ?_, ?_, ?_, ?_, ?_⟩
  · simp only [demo_thread_handler, IRQ_BUFFER_SIZE]
    split <;> omega
  · simp only [demo_thread_handler, IRQ_BUFFER_SIZE]
    split <;> omega
  · simp only [demo_thread_handler, IRQ_BUFFER_SIZE]
    omega
  · simp only [demo_thread_handler, IRQ_BUFFER_SIZE]
    omega
  · simp only [control_reset]
    omega
  · simp only [control_reset, IRQ_BUFFER_SIZE]
    omega
  · simp only [control_reset]
    omega
  · simp only [control_reset, IRQ_BUFFER_SIZE]
    omega
  · simp [demo_thread_handler]
  · simp only [demo_thread_handler, IRQ_BUFFER_SIZE]
  · simp only [demo_thread_handler, IRQ_BUFFER_SIZE]
    split <;> omega
  · simp only [data_show, List.length_map, List.length_range]
  · intro h64
    omega

/-- Witness for C5 at a concrete full buffer. -/
theorem c5_ring_buffer_witness :
    IrqBufferInv ⟨false, 77, fun _ => 0, 5, 64, 0, 0, 0, 0, 0, false, 100, false⟩ ∧
    (demo_thread_handler
      ⟨false, 77, fun _ => 0, 5, 64, 0, 0, 0, 0, 0, false, 100, false⟩ 0).data_buffer 5
      = 77 ∧
    (demo_thread_handler
      ⟨false, 77, fun _ => 0, 5, 64, 0, 0, 0, 0, 0, false, 100, false⟩ 0).data_count
      = 64 ∧
    ((5 : Int) - 64 + 0 + 64) % 64 = 5 := by
  have h := c5_ring_buffer ⟨false, 77, fun _ => 0, 5, 64, 0, 0, 0, 0, 0, false, 100, false⟩
    0 ⟨by decide, by decide, by decide, by decide⟩
  refine ⟨⟨by decide, by decide, by decide, by decide⟩, h.2.2.1, ?_, ?_⟩
  · rw [h.2.2.2.2.1]
    decide
  · have := h.2.2.2.2.2.2 rfl
    simpa using this

/-- C10: after a successful probe the device is quiescent — not running,
interval 100 ms, pending flag and all three counters zero, data buffer empty,
simulation timer unarmed — and the timer callback generates nothing while the
device is not running; remove stops the simulation and the timer. -/
theorem c10_probe_remove_lifecycle :
    demo_probe.running = false ∧ demo_probe.interval_ms = 100 ∧
    demo_probe.pending_irq = false ∧ demo_probe.hardirq_count = 0 ∧
    demo_probe.thread_count = 0 ∧ demo_probe.spurious_count = 0 ∧
    demo_probe.data_count = 0 ∧ demo_probe.data_head = 0 ∧
    demo_probe.timer_armed = false ∧
    (∀ rnd now, trigger_simulated_irq demo_probe rnd now = demo_probe) ∧
    (∀ dev : IrqDemoDevice, (demo_remove dev).running = false ∧
      (demo_remove dev).timer_armed = false) :=
  ⟨rfl, rfl, rfl, rfl, rfl, rfl, rfl, rfl, rfl,
   fun _ _ => rfl, fun _ => ⟨rfl, rfl⟩⟩


/- ====================================================================
   Theorems: RTC demo (claim C8)
   ==================================================================== -/

theorem century_extract (U q c w : Nat) (hu : U = 146097 * q + 36524 * c + w)
    (hc : c ≤ 3) (hw : w ≤ 36524) (hval : c = 3 ∨ w < 36524)
    (hwrap : 4 * U + 3 < 4294967296) :
    (4 * U + 3) % 4294967296 / 146097 = 4 * q + c ∧
    (4 * U + 3) % 4294967296 % 146097 / 4 = w := by
  have h1 : (4 * U + 3) % 4294967296 / 146097 = 4 * q + c := by
    rcases hval with h | h
    · subst h; omega
    · omega
  have h2 : (4 * U + 3) % 4294967296 % 146097 = 4 * w + 3 - c := by omega
  exact ⟨h1, by omega⟩

theorem yoc_extract (w z j : Nat) (hw : w = 1461 * z / 4 + j) (hz : z ≤ 99) (hj : j ≤ 365)
    (hval : j < 365 ∨ z % 4 = 3) :
    2939745 * (4 * w + 3) / 4294967296 = z ∧
    2939745 * (4 * w + 3) % 4294967296 / 2939745 / 4 = j := by
  obtain ⟨zq, zr, rfl, hzr⟩ : ∃ zq zr, z = 4 * zq + zr ∧ zr < 4 :=
    ⟨z / 4, z % 4, by omega, by omega⟩
  have h1 : 2939745 * (4 * w + 3) / 4294967296 = 4 * zq + zr := by
    interval_cases zr <;> omega
  refine ⟨h1, ?_⟩
  interval_cases zr <;> omega

theorem month_extract (j Mc d : Nat) (hMc : 1 ≤ Mc) (hMc2 : Mc ≤ 12) (hd : 1 ≤ d)
    (hj : j = 367 * Mc / 12 + d - 31) (hdm : CompDayOk Mc d) :
    (2141 * j + 132377) / 65536 = Mc + 1 ∧
    (2141 * j + 132377) % 65536 / 2141 = d - 1 := by
  obtain ⟨h31, h2, h4, h7, h9, h12⟩ := hdm
  subst hj
  interval_cases Mc <;> (constructor <;> omega)

/-- Round trip on the computational (March-based) calendar. -/
theorem civilFromDays_comp (days Yc Mc d : Nat)
    (hdays : days + 719468 + 31 + Yc / 100 =
      Yc * 365 + Yc / 4 + Yc / 400 + 367 * Mc / 12 + d)
    (hYc : 1969 ≤ Yc) (hYmax : Yc ≤ 2901900)
    (hMc : 1 ≤ Mc) (hMc12 : Mc ≤ 12) (hd : 1 ≤ d)
    (hdm : CompDayOk Mc d)
    (hleap : Mc = 12 ∧ d = 29 →
      (Yc + 1) % 4 = 0 ∧ ((Yc + 1) % 100 ≠ 0 ∨ (Yc + 1) % 400 = 0)) :
    civilFromDays days =
      (Yc + (if 11 ≤ Mc then 1 else 0), if 11 ≤ Mc then Mc - 11 else Mc + 1, d) := by
  obtain ⟨h31, hc2, hc4, hc7, hc9, hc12⟩ := hdm
  obtain ⟨q, cc, z, hYcEq, hcc, hz⟩ :
      ∃ q cc z, Yc = 400 * q + 100 * cc + z ∧ cc < 4 ∧ z < 100 :=
    ⟨Yc / 400, Yc / 100 % 4, Yc % 100, by omega, by omega, by omega⟩
  have hA : Yc * 365 + Yc / 4 + Yc / 400 =
      146097 * q + 36524 * cc + 1461 * z / 4 + (4 * q + cc) ∧ Yc / 100 = 4 * q + cc := by
    have hd4 : Yc / 4 = 100 * q + 25 * cc + z / 4 := by omega
    have hd400 : Yc / 400 = q := by omega
    have hd100 : Yc / 100 = 4 * q + cc := by omega
    have hz4 : 1461 * z / 4 = 365 * z + z / 4 := by omega
    exact ⟨by omega, hd100⟩
  have hmlow : 30 ≤ 367 * Mc / 12 := by omega
  have hj365 : 367 * Mc / 12 + d - 31 ≤ 365 := by omega
  have hu : days + 719468 =
      146097 * q + 36524 * cc + (1461 * z / 4 + (367 * Mc / 12 + d - 31)) := by
    omega
  have hvalJ : 367 * Mc / 12 + d - 31 < 365 ∨ z % 4 = 3 := by
    by_cases hx : Mc = 12 ∧ d = 29
    · right
      have := hleap hx
      omega
    · left; omega
  have hw : 1461 * z / 4 + (367 * Mc / 12 + d - 31) ≤ 36524 := by omega
  have hvalW : cc = 3 ∨ 1461 * z / 4 + (367 * Mc / 12 + d - 31) < 36524 := by
    by_cases hx : Mc = 12 ∧ d = 29
    · have := hleap hx
      by_cases hz99 : z = 99
      · left; omega
      · right; omega
    · right; omega
  have hwrap : 4 * (days + 719468) + 3 < 4294967296 := by omega
  have hcent := century_extract (days + 719468) q cc
    (1461 * z / 4 + (367 * Mc / 12 + d - 31)) hu (by omega) hw hvalW hwrap
  have hyoc := yoc_extract (1461 * z / 4 + (367 * Mc / 12 + d - 31)) z
    (367 * Mc / 12 + d - 31) rfl (by omega) hj365 hvalJ
  have hmon := month_extract (367 * Mc / 12 + d - 31) Mc d hMc hMc12 hd rfl
    ⟨h31, hc2, hc4, hc7, hc9, hc12⟩
  have hJF : (306 ≤ 367 * Mc / 12 + d - 31) ↔ (11 ≤ Mc) := by
    constructor <;> intro h <;> omega
  simp only [civilFromDays]
  rw [hcent.1, hcent.2, hyoc.1, hyoc.2, hmon.1, hmon.2]
  simp only [hJF, Prod.mk.injEq]
  refine ⟨?_, ?_, by omega⟩ <;> split_ifs with h <;> omega

theorem is_leap_year_iff (y : Nat) :
    is_leap_year y = true ↔ (y % 4 = 0 ∧ y % 100 ≠ 0) ∨ y % 400 = 0 := by
  simp [is_leap_year]

theorem month_days_feb (Y d : Nat) (hdm : d ≤ rtc_month_days 1 Y) :
    d ≤ 29 ∧ (d = 29 → (Y % 4 = 0 ∧ Y % 100 ≠ 0) ∨ Y % 400 = 0) := by
  by_cases hly : is_leap_year Y = true
  · have h : rtc_month_days 1 Y = 29 := by
      simp [rtc_month_days, rtc_days_in_month, hly]
    rw [is_leap_year_iff] at hly
    rw [h] at hdm
    exact ⟨hdm, fun _ => hly⟩
  · rw [Bool.not_eq_true] at hly
    have h : rtc_month_days 1 Y = 28 := by
      simp [rtc_month_days, rtc_days_in_month, hly]
    rw [h] at hdm
    exact ⟨by omega, fun h29 => by omega⟩

theorem civil_mkdays (Y M0 d : Nat) (hY : 1970 ≤ Y) (hYmax : Y ≤ 2901900)
    (hM1 : 1 ≤ M0) (hM12 : M0 ≤ 12) (hd : 1 ≤ d)
    (hdm : d ≤ rtc_month_days (M0 - 1) Y) :
    civilFromDays (mkdays Y M0 d) = (Y, M0 - 1, d) := by
  by_cases hm2 : M0 ≤ 2
  · -- January / February: computational month M0 + 10 of year Y - 1
    interval_cases M0
    · simp only [rtc_month_days, rtc_days_in_month] at hdm
      norm_num at hdm
      rw [civilFromDays_comp (mkdays Y 1 d) (Y - 1) 11 d
        (by simp only [mkdays]; norm_num; omega) (by omega) (by omega)
        (by omega) (by omega) hd
        (by refine ⟨by omega, ?_, ?_, ?_, ?_, ?_⟩ <;> omega)
        (by omega)]
      norm_num
      omega
    · obtain ⟨h29, hlp⟩ := month_days_feb Y d hdm
      rw [civilFromDays_comp (mkdays Y 2 d) (Y - 1) 12 d
        (by simp only [mkdays]; norm_num; omega) (by omega) (by omega)
        (by omega) (by omega) hd
        (by refine ⟨by omega, ?_, ?_, ?_, ?_, ?_⟩ <;> omega)
        (by intro hx; have := hlp hx.2; omega)]
      norm_num
      omega
  · -- March to December: computational month M0 - 2 of year Y
    have hdm' : CompDayOk (M0 - 2) d := by
      interval_cases M0 <;>
        simp only [rtc_month_days, rtc_days_in_month] at hdm <;>
        norm_num at hdm <;>
        (refine ⟨?_, ?_, ?_, ?_, ?_, ?_⟩ <;> omega)
    rw [civilFromDays_comp (mkdays Y M0 d) Y (M0 - 2) d
      (by simp only [mkdays, if_neg hm2]; omega) (by omega) (by omega)
      (by omega) (by omega) hd hdm'
      (by intro hx; omega)]
    have h11 : ¬ (11 ≤ M0 - 2) := by omega
    rw [if_neg h11, if_neg h11]
    simp only [Prod.mk.injEq]
    refine ⟨by omega, by omega, ?_⟩
    trivial

theorem tm_roundtrip (tm : RtcTime) (hv : rtc_valid_tm tm)
    (hcap : tm.tm_year ≤ 2900000) :
    rtc_time64_to_tm (rtc_tm_to_time64 tm) = tm := by
  obtain ⟨tsec, tmin, thour, tmday, tmon, tyear⟩ := tm
  obtain ⟨h70, hmax, hmon0, hmon11, hmd1, hmd2, hh0, hh23, hmi0, hmi59, hs0, hs59⟩ := hv
  dsimp only at h70 hmax hmon0 hmon11 hmd1 hmd2 hh0 hh23 hmi0 hmi59 hs0 hs59 hcap
  obtain ⟨Y, hY⟩ : ∃ Y : Nat, (Y : Int) = tyear + 1900 := ⟨_, Int.toNat_of_nonneg (by omega)⟩
  obtain ⟨M0, hM0⟩ : ∃ M0 : Nat, (M0 : Int) = tmon + 1 := ⟨_, Int.toNat_of_nonneg (by omega)⟩
  obtain ⟨d, hdn⟩ : ∃ d : Nat, (d : Int) = tmday := ⟨_, Int.toNat_of_nonneg (by omega)⟩
  obtain ⟨hh, hhn⟩ : ∃ hh : Nat, (hh : Int) = thour := ⟨_, Int.toNat_of_nonneg (by omega)⟩
  obtain ⟨mi, hmin⟩ : ∃ mi : Nat, (mi : Int) = tmin := ⟨_, Int.toNat_of_nonneg (by omega)⟩
  obtain ⟨s, hsn⟩ : ∃ s : Nat, (s : Int) = tsec := ⟨_, Int.toNat_of_nonneg (by omega)⟩
  have hYe : (tyear + 1900).toNat = Y := by omega
  have hM0e : (tmon + 1).toNat = M0 := by omega
  have hde : tmday.toNat = d := by omega
  have hhe : thour.toNat = hh := by omega
  have hmie : tmin.toNat = mi := by omega
  have hse : tsec.toNat = s := by omega
  have hmdays : tmon.toNat = M0 - 1 := by omega
  rw [hmdays] at hmd2
  rw [hYe] at hmd2
  have hdm : d ≤ rtc_month_days (M0 - 1) Y := by omega
  have hciv := civil_mkdays Y M0 d (by omega) (by omega) (by omega) (by omega)
    (by omega) hdm
  simp only [rtc_tm_to_time64]
  rw [hYe, hM0e, hde, hhe, hmie, hse]
  simp only [rtc_time64_to_tm, mktime64]
  have htod : hh * 3600 + mi * 60 + s < 86400 := by omega
  have ht : (↑(((mkdays Y M0 d * 24 + hh) * 60 + mi) * 60 + s) : Int).toNat
      = mkdays Y M0 d * 86400 + (hh * 3600 + mi * 60 + s) := by
    rw [Int.toNat_ofNat]
    ring
  rw [ht]
  have hdiv : (mkdays Y M0 d * 86400 + (hh * 3600 + mi * 60 + s)) / 86400 = mkdays Y M0 d := by
    omega
  have hmod : (mkdays Y M0 d * 86400 + (hh * 3600 + mi * 60 + s)) % 86400
      = hh * 3600 + mi * 60 + s := by omega
  rw [hdiv, hmod, hciv]
  have e1 : (hh * 3600 + mi * 60 + s) / 3600 = hh := by omega
  rw [e1]
  have e2 : hh * 3600 + mi * 60 + s - hh * 3600 = mi * 60 + s := by omega
  rw [e2]
  have e3 : (mi * 60 + s) / 60 = mi := by omega
  rw [e3]
  have e4 : mi * 60 + s - mi * 60 = s := by omega
  rw [e4]
  simp only [RtcTime.mk.injEq]
  refine ⟨?_, ?_, ?_, ?_, ?_, ?_⟩ <;> omega

/-- C8 (amended): `demo_rtc_read_time` returns the last base time set plus
the whole seconds of real time elapsed since that base was recorded; and for
every valid calendar time `tm` whose year does not exceed 2,900,000 (within
the range where the kernel's 32-bit Neri-Schneider date decoding in
`rtc_time64_to_tm` does not overflow), `demo_rtc_set_time tm` followed
immediately by `demo_rtc_read_time` yields `tm` again. -/
theorem c8_amended (drtc : DemoRtc) (tm : RtcTime) (k e : Int) (he : 0 ≤ e) :
    demo_rtc_read_time (demo_rtc_set_time drtc tm k) (k + e)
      = rtc_time64_to_tm (rtc_tm_to_time64 tm + Int.tdiv e 1000000000)
    ∧ (rtc_valid_tm tm → tm.tm_year ≤ 2900000 →
      demo_rtc_read_time (demo_rtc_set_time drtc tm k) k = tm) := by
  constructor
  · simp [demo_rtc_read_time, demo_rtc_get_time64, demo_rtc_set_time]
  · intro hv hcap
    have h0 : demo_rtc_get_time64 (demo_rtc_set_time drtc tm k) k = rtc_tm_to_time64 tm := by
      simp [demo_rtc_get_time64, demo_rtc_set_time]
    simp only [demo_rtc_read_time, h0]
    exact tm_roundtrip tm hv hcap

/-- C8 (counterexample to the claim as stated): for the valid calendar time
1 Jan 3,000,000 (tm_year = 2998100), setting the time and immediately reading
it back does not return the same time: `4 * udays + 3` overflows the `u32` in
`rtc_time64_to_tm`, so the decoded year is wrong. -/
theorem c8_counterexample :
    rtc_valid_tm ⟨0, 0, 0, 1, 0, 2998100⟩ ∧
    demo_rtc_read_time
        (demo_rtc_set_time ⟨0, 0⟩ ⟨0, 0, 0, 1, 0, 2998100⟩ 0) 0
      ≠ ⟨0, 0, 0, 1, 0, 2998100⟩ := by
  constructor
  · simp only [rtc_valid_tm]
    norm_num [rtc_month_days, rtc_days_in_month, is_leap_year]
  · decide


/-- Witness for C8 (amended) at 2024-02-29 23:59:59. -/
theorem c8_amended_witness :
    (0 : Int) ≤ 0 ∧ rtc_valid_tm ⟨59, 59, 23, 29, 1, 124⟩ ∧
    (⟨59, 59, 23, 29, 1, 124⟩ : RtcTime).tm_year ≤ 2900000 ∧
    demo_rtc_read_time (demo_rtc_set_time ⟨0, 0⟩ ⟨59, 59, 23, 29, 1, 124⟩ 5) 5
      = ⟨59, 59, 23, 29, 1, 124⟩ :=
  ⟨by decide, by simp only [rtc_valid_tm]; decide, by decide,
   (c8_amended ⟨0, 0⟩ ⟨59, 59, 23, 29, 1, 124⟩ 5 0 (by decide)).2
     (by simp only [rtc_valid_tm]; decide) (by decide)⟩

/- ====================================================================
   Theorems: repository inventory (claims C1, C2)
   ==================================================================== -/

/-- C1 (counterexample to the claim as stated): test_ioctl.c is a source file
of the repository, yet it is a user-space program with `main` and defines no
`module_init`/`module_exit` entry points — it is not a loadable kernel module
and exercises no kernel framework registration contract. -/
theorem c1_counterexample :
    userProgFile "examples/part3/ioctl-device/test_ioctl.c" ∈ repoFiles ∧
    (userProgFile "examples/part3/ioctl-device/test_ioctl.c").hasMain = true ∧
    definesEntryExit (userProgFile "examples/part3/ioctl-device/test_ioctl.c") = false :=
  ⟨(by repeat first | exact List.Mem.head _ | apply List.Mem.tail), rfl, rfl⟩

/-- C1 (amended): every source file except the two user-space test programs
(test_ioctl.c, uio_userspace.c), the shared header ioctl_example.h, and the
KUnit test (which registers through `kunit_test_suite()` instead) defines a
module entry and exit point, directly via `module_init`/`module_exit` or via
a `module_*_driver()` helper that expands to them. -/
theorem c1_amended : ∀ f ∈ repoFiles, f.isHeader = false → f.hasMain = false →
    f.viaKunitTestSuite = false → definesEntryExit f = true := by
  decide

/-- Witness for C1 (amended) at hello.c. -/
theorem c1_amended_witness :
    kmodFile "examples/part1/hello-world/hello.c" ∈ repoFiles ∧
    definesEntryExit (kmodFile "examples/part1/hello-world/hello.c") = true :=
  ⟨(by repeat first | exact List.Mem.head _ | apply List.Mem.tail), c1_amended _ (by repeat first | exact List.Mem.head _ | apply List.Mem.tail) rfl rfl rfl⟩

